import Mathlib

/- Verification of the fingerprint feature-extraction core of this repository:
   the orientation-field estimator, the ridge-frequency estimator and the
   rotated-rectangle cropping geometry of helper.py, and the minutia
   feature-vector builder of features.py.  Numeric arrays are embedded as
   functions out of their index types; external library routines that the
   code calls (scipy's image rotation and wavelet peak detector) are
   parameters of the embedding. -/

noncomputable section

open Real Classical

/-- numpy's arctan2: the angle of the point (x, y), taken in (-pi, pi]. -/
def arctan2 (y x : ℝ) : ℝ := Complex.arg ⟨x, y⟩

/-- Python float modulo for a real modulus: a - m * floor (a / m).  For m > 0
the result lies in [0, m), as with numpy's `%` on arrays. -/
def pymod (a m : ℝ) : ℝ := a - m * (⌊a / m⌋ : ℤ)

/-- Python's int() on a float: truncation toward zero. -/
def pyInt (x : ℝ) : ℤ := if 0 ≤ x then ⌊x⌋ else ⌈x⌉

/-- OpenCV BORDER_REFLECT_101 index reflection (gfedcb|abcdefgh|gfedcb),
for overshoots of less than one image width, as produced by radius-1
kernels. -/
def reflect101 (n : ℕ) (i : ℤ) : ℤ :=
  if i < 0 then -i else if (n : ℤ) ≤ i then 2 * ((n : ℤ) - 1) - i else i

/-- Index clamping into [0, n-1], the access pattern of numpy edge padding. -/
def clampIdx (n : ℕ) (i : ℤ) : ℕ := (max 0 (min i ((n : ℤ) - 1))).toNat

/-- Python slice bound normalization for a sequence of length n: negative
bounds count from the end, then the bound is clipped into [0, n]. -/
def sliceNorm (n : ℕ) (v : ℤ) : ℤ := if v < 0 then max ((n : ℤ) + v) 0 else min v n

/-- The length of the Python slice a[s:t] of a sequence of length n. -/
def sliceLen (n : ℕ) (s t : ℤ) : ℕ := (sliceNorm n t - sliceNorm n s).toNat

/-- The first index read by the Python slice a[s:t] of a sequence of length n. -/
def sliceStart (n : ℕ) (s : ℤ) : ℕ := (sliceNorm n s).toNat

/-- The minimum of a list of reals, as numpy's min on a nonempty array. -/
def listMin (xs : List ℝ) : ℝ := xs.foldl min (xs.headD 0)

/-- The maximum of a list of reals, as numpy's max on a nonempty array. -/
def listMax (xs : List ℝ) : ℝ := xs.foldl max (xs.headD 0)

/-- helper.normalize on a 1-D array: shift so the minimum is 0, then scale by
the reciprocal of the maximum when that maximum is positive. -/
def normalize1D (xs : List ℝ) : List ℝ :=
  let shifted := xs.map (fun v => v - listMin xs)
  if 0 < listMax shifted then shifted.map (fun v => v * (1 / listMax shifted))
  else shifted

/-- |sin angle| as used by helper.rotatedRectWithMaxArea. -/
def sinA (angle : ℝ) : ℝ := |Real.sin angle|

/-- |cos angle| as used by helper.rotatedRectWithMaxArea. -/
def cosA (angle : ℝ) : ℝ := |Real.cos angle|

/-- side_long of helper.rotatedRectWithMaxArea: w if w >= h else h. -/
def sideLongN (h w : ℕ) : ℕ := if h ≤ w then w else h

/-- side_short of helper.rotatedRectWithMaxArea: h if w >= h else w. -/
def sideShortN (h w : ℕ) : ℕ := if h ≤ w then h else w

/-- The branch condition of helper.rotatedRectWithMaxArea:
side_short <= 2 * sin_a * cos_a * side_long (the half-constrained case). -/
def halfConstrained (h w : ℕ) (angle : ℝ) : Prop :=
  (sideShortN h w : ℝ) ≤ 2 * sinA angle * cosA angle * (sideLongN h w : ℝ)

/-- The real crop dimensions (wr, hr) computed by helper.rotatedRectWithMaxArea
for an h-by-w block, before truncation to integers. -/
def cropDims (h w : ℕ) (angle : ℝ) : ℝ × ℝ :=
  if halfConstrained h w angle then
    let x := (sideShortN h w : ℝ) / 2
    if h ≤ w then (x / sinA angle, x / cosA angle)
    else (x / cosA angle, x / sinA angle)
  else
    let cos2a := cosA angle * cosA angle - sinA angle * sinA angle
    (((w : ℝ) * cosA angle - (h : ℝ) * sinA angle) / cos2a,
     ((h : ℝ) * cosA angle - (w : ℝ) * sinA angle) / cos2a)

/-- wr of helper.rotatedRectWithMaxArea after int() truncation. -/
def cropWr (h w : ℕ) (angle : ℝ) : ℤ := pyInt (cropDims h w angle).1

/-- hr of helper.rotatedRectWithMaxArea after int() truncation. -/
def cropHr (h w : ℕ) (angle : ℝ) : ℤ := pyInt (cropDims h w angle).2

/-- The row offset y = (h - hr) // 2 of the crop (Python floor division). -/
def cropY (h w : ℕ) (angle : ℝ) : ℤ := ((h : ℤ) - cropHr h w angle) / 2

/-- The column offset x = (w - wr) // 2 of the crop (Python floor division). -/
def cropX (h w : ℕ) (angle : ℝ) : ℤ := ((w : ℤ) - cropWr h w angle) / 2

/-- The number of rows of the crop image[y:y+hr, x:x+wr] returned by
helper.rotatedRectWithMaxArea from the h-by-w rotated canvas. -/
def rotCropRows (h w : ℕ) (angle : ℝ) : ℕ :=
  sliceLen h (cropY h w angle) (cropY h w angle + cropHr h w angle)

/-- The number of columns of the crop returned by helper.rotatedRectWithMaxArea. -/
def rotCropCols (h w : ℕ) (angle : ℝ) : ℕ :=
  sliceLen w (cropX h w angle) (cropX h w angle + cropWr h w angle)

/-- The element count of the crop returned by helper.rotatedRectWithMaxArea. -/
def rotCropSize (h w : ℕ) (angle : ℝ) : ℕ :=
  rotCropRows h w angle * rotCropCols h w angle

/-- The entries of the crop returned by helper.rotatedRectWithMaxArea, read
from the same-size rotated canvas (the rotation itself is scipy's
ndimage rotate with reshape=False, abstracted as the canvas argument). -/
def rotCropWindow (canvas : ℕ → ℕ → ℝ) (h w : ℕ) (angle : ℝ) : ℕ → ℕ → ℝ :=
  fun i j =>
    canvas (sliceStart h (cropY h w angle) + i) (sliceStart w (cropX h w angle) + j)

/-- The crop dimensions as the specification words them: side_long and
side_short are the longer and shorter of w and h, the half-constrained regime
is triggered when side_short <= 2 sin_a cos_a side_long with half-extent
x = side_short / 2 and dims x / sin_a and x / cos_a assigned according to
which original side is longer, and otherwise the fully-constrained formula
with cos_2a = cos_a^2 - sin_a^2 applies. -/
def specCropDims (h w : ℕ) (angle : ℝ) : ℝ × ℝ :=
  let sl : ℝ := (max w h : ℕ)
  let ss : ℝ := (min w h : ℕ)
  if ss ≤ 2 * sinA angle * cosA angle * sl then
    let x := ss / 2
    if h ≤ w then (x / sinA angle, x / cosA angle)
    else (x / cosA angle, x / sinA angle)
  else
    let cos2a := cosA angle ^ 2 - sinA angle ^ 2
    (((w : ℝ) * cosA angle - (h : ℝ) * sinA angle) / cos2a,
     ((h : ℝ) * cosA angle - (w : ℝ) * sinA angle) / cos2a)

/-- Kernel offsets -1, 0, 1 of a radius-1 convolution. -/
def off : Fin 3 → ℤ := ![-1, 0, 1]

/-- The 1-D kernel of cv2.GaussianBlur with ksize 3 and sigma 0:
OpenCV's fixed small kernel (1/4, 1/2, 1/4). -/
def blurK : Fin 3 → ℝ := ![1/4, 1/2, 1/4]

/-- The smoothing factor (1, 2, 1) of the 3x3 Sobel kernel. -/
def sobelS : Fin 3 → ℝ := ![1, 2, 1]

/-- The differencing factor (-1, 0, 1) of the 3x3 Sobel kernel. -/
def sobelD : Fin 3 → ℝ := ![-1, 0, 1]

/-- Reading an H-by-W array at integer offsets with BORDER_REFLECT_101,
as OpenCV filtering does at image borders. -/
def reflAt (f : ℕ → ℕ → ℝ) (hDim wDim : ℕ) (i j : ℤ) : ℝ :=
  f (reflect101 hDim i).toNat (reflect101 wDim j).toNat

/-- cv2.GaussianBlur(image, (3,3), 0) of an H-by-W image. -/
def blurred (img : ℕ → ℕ → ℝ) (hDim wDim : ℕ) : ℕ → ℕ → ℝ :=
  fun i j =>
    ∑ u : Fin 3, ∑ v : Fin 3,
      blurK u * blurK v * reflAt img hDim wDim ((i : ℤ) + off u) ((j : ℤ) + off v)

/-- The horizontal Sobel gradient gx of getOrientations, taken of the blurred
image with ksize 3. -/
def gradX (img : ℕ → ℕ → ℝ) (hDim wDim : ℕ) : ℕ → ℕ → ℝ :=
  fun i j =>
    ∑ u : Fin 3, ∑ v : Fin 3,
      sobelS u * sobelD v *
        reflAt (blurred img hDim wDim) hDim wDim ((i : ℤ) + off u) ((j : ℤ) + off v)

/-- The vertical Sobel gradient gy of getOrientations. -/
def gradY (img : ℕ → ℕ → ℝ) (hDim wDim : ℕ) : ℕ → ℕ → ℝ :=
  fun i j =>
    ∑ u : Fin 3, ∑ v : Fin 3,
      sobelD u * sobelS v *
        reflAt (blurred img hDim wDim) hDim wDim ((i : ℤ) + off u) ((j : ℤ) + off v)

/-- The block accumulator `numerator = sum of 2 gx gy` of getOrientations over
the w-by-w block at block index (i, j). -/
def orientNum (img : ℕ → ℕ → ℝ) (hDim wDim w : ℕ) (i j : ℕ) : ℝ :=
  ∑ v ∈ Finset.range w, ∑ u ∈ Finset.range w,
    2 * gradX img hDim wDim (i * w + v) (j * w + u) *
      gradY img hDim wDim (i * w + v) (j * w + u)

/-- The block accumulator `denominator = sum of gx^2 - gy^2` of getOrientations. -/
def orientDen (img : ℕ → ℕ → ℝ) (hDim wDim w : ℕ) (i j : ℕ) : ℝ :=
  ∑ v ∈ Finset.range w, ∑ u ∈ Finset.range w,
    (gradX img hDim wDim (i * w + v) (j * w + u) ^ 2 -
      gradY img hDim wDim (i * w + v) (j * w + u) ^ 2)

/-- The raw block gradient angle arctan2(numerator, denominator) / 2. -/
def orienRaw (img : ℕ → ℕ → ℝ) (hDim wDim w : ℕ) (i j : ℕ) : ℝ :=
  arctan2 (orientNum img hDim wDim w i j) (orientDen img hDim wDim w i j) / 2

/-- The block angle rotated by 90 degrees and reduced modulo pi:
(orien + pi/2) % pi, the pre-smoothing block orientation. -/
def orienMod (img : ℕ → ℕ → ℝ) (hDim wDim w : ℕ) (i j : ℕ) : ℝ :=
  pymod (orienRaw img hDim wDim w i j + π / 2) π

/-- The block-orientation grid padded by 1 with numpy edge mode, read at
integer indices of the padded coordinate frame shifted back by 1. -/
def orienPadded (img : ℕ → ℕ → ℝ) (hDim wDim w : ℕ) (i j : ℤ) : ℝ :=
  orienMod img hDim wDim w (clampIdx (hDim / w) i) (clampIdx (wDim / w) j)

/-- The doubled-angle smoothing step of getOrientations on one 3x3 block
neighborhood: arctan2 of the mean of sin(2 angle) and the mean of
cos(2 angle), halved. -/
def smoothStep (nb : Fin 3 → Fin 3 → ℝ) : ℝ :=
  arctan2 ((∑ a : Fin 3, ∑ b : Fin 3, Real.sin (2 * nb a b)) / 9)
    ((∑ a : Fin 3, ∑ b : Fin 3, Real.cos (2 * nb a b)) / 9) / 2

/-- The smoothed orientation of block (x, y) in getOrientations. -/
def orientSmooth (img : ℕ → ℕ → ℝ) (hDim wDim w : ℕ) (x y : ℕ) : ℝ :=
  smoothStep (fun a b =>
    orienPadded img hDim wDim w ((x : ℤ) + off a) ((y : ℤ) + off b))

/-- helper.getOrientations: the dense per-pixel orientation field.  The output
canvas is filled with -1 and each full block footprint is overwritten with its
block's smoothed angle. -/
def getOrientations (img : ℕ → ℕ → ℝ) (hDim wDim w : ℕ) : ℕ → ℕ → ℝ :=
  fun i j =>
    if i / w < hDim / w ∧ j / w < wDim / w then
      orientSmooth img hDim wDim w (i / w) (j / w)
    else -1

/-- The inputs of helper.getFrequencies: the image with its dimensions, the
dense orientation field, the block size, and the two external collaborators
the code calls: scipy's ndimage rotation of a block canvas (reshape=False, so
the canvas keeps its size; the degree conversion is absorbed into it) and
scipy.signal's wavelet peak detector find_peaks_cwt with width 3. -/
structure FreqCtx where
  img : ℕ → ℕ → ℝ
  hDim : ℕ
  wDim : ℕ
  orient : ℕ → ℕ → ℝ
  w : ℕ
  rotate : (ℕ → ℕ → ℝ) → ℝ → ℕ → ℕ → ℝ
  findPeaks : List ℝ → List ℤ

/-- The number of block rows of getFrequencies. -/
def FreqCtx.xblocks (c : FreqCtx) : ℕ := c.hDim / c.w

/-- The number of block columns of getFrequencies. -/
def FreqCtx.yblocks (c : FreqCtx) : ℕ := c.wDim / c.w

/-- The w-by-w image block at block index (x, y). -/
def FreqCtx.block (c : FreqCtx) (x y : ℕ) : ℕ → ℕ → ℝ :=
  fun i j => c.img (x * c.w + i) (y * c.w + j)

/-- The rotation angle pi/2 + orientation of block (x, y), the orientation
being read at the block's center pixel of the dense field. -/
def FreqCtx.blockAngle (c : FreqCtx) (x y : ℕ) : ℝ :=
  π / 2 + c.orient (x * c.w + c.w / 2) (y * c.w + c.w / 2)

/-- The rotated canvas of block (x, y). -/
def FreqCtx.canvas (c : FreqCtx) (x y : ℕ) : ℕ → ℕ → ℝ :=
  c.rotate (c.block x y) (c.blockAngle x y)

/-- The row count of the cropped window of block (x, y). -/
def FreqCtx.windowRows (c : FreqCtx) (x y : ℕ) : ℕ :=
  rotCropRows c.w c.w (c.blockAngle x y)

/-- The column count of the cropped window of block (x, y). -/
def FreqCtx.windowCols (c : FreqCtx) (x y : ℕ) : ℕ :=
  rotCropCols c.w c.w (c.blockAngle x y)

/-- The element count window.size of the cropped window of block (x, y). -/
def FreqCtx.windowSize (c : FreqCtx) (x y : ℕ) : ℕ :=
  rotCropSize c.w c.w (c.blockAngle x y)

/-- The entries of the cropped window of block (x, y). -/
def FreqCtx.window (c : FreqCtx) (x y : ℕ) : ℕ → ℕ → ℝ :=
  rotCropWindow (c.canvas x y) c.w c.w (c.blockAngle x y)

/-- The column sums of the cropped window: the 1-D ridge projection. -/
def FreqCtx.columns (c : FreqCtx) (x y : ℕ) : List ℝ :=
  (List.range (c.windowCols x y)).map
    (fun j => ∑ i ∈ Finset.range (c.windowRows x y), c.window x y i j)

/-- The peak indices found on the normalized projection of block (x, y). -/
def FreqCtx.peaks (c : FreqCtx) (x y : ℕ) : List ℤ :=
  c.findPeaks (normalize1D (c.columns x y))

/-- The mean peak spacing f = (peaks[-1] - peaks[0]) / (len(peaks) - 1),
Python true division. -/
def FreqCtx.spacing (c : FreqCtx) (x y : ℕ) : ℝ :=
  ((c.peaks x y).getLastD 0 - (c.peaks x y).headD 0 : ℤ) /
    (((c.peaks x y).length : ℝ) - 1)

/-- The pre-smoothing local frequency estimate F[x, y] of getFrequencies. -/
def FreqCtx.localFreq (c : FreqCtx) (x y : ℕ) : ℝ :=
  if c.windowSize x y = 0 then -1
  else if (c.peaks x y).length < 2 then -1
  else if c.spacing x y < 5 ∨ 15 < c.spacing x y then -1
  else 1 / c.spacing x y

/-- The local-estimate grid padded by 3 with numpy edge mode, read at integer
indices of the original (unshifted) block frame. -/
def FreqCtx.Fpad (c : FreqCtx) (i j : ℤ) : ℝ :=
  c.localFreq (clampIdx c.xblocks i) (clampIdx c.yblocks j)

/-- The positions of the 7x7 neighborhood of block (x, y) whose padded local
estimate is >= 0, the entries getFrequencies keeps for averaging. -/
def FreqCtx.validPairs (c : FreqCtx) (x y : ℕ) : Finset (Fin 7 × Fin 7) :=
  Finset.filter
    (fun p => 0 ≤ c.Fpad ((x : ℤ) + p.1 - 3) ((y : ℤ) + p.2 - 3)) Finset.univ

/-- The positions of the 7x7 neighborhood of block (x, y) whose padded local
estimate differs from the invalid sentinel -1, the entries the specification
says are kept. -/
def FreqCtx.sentinelValid (c : FreqCtx) (x y : ℕ) : Finset (Fin 7 × Fin 7) :=
  Finset.filter
    (fun p => c.Fpad ((x : ℤ) + p.1 - 3) ((y : ℤ) + p.2 - 3) ≠ -1) Finset.univ

/-- The smoothed final value of block (x, y): the mean of the valid 7x7
neighborhood entries, or -1 when none is valid. -/
def FreqCtx.blockFreq (c : FreqCtx) (x y : ℕ) : ℝ :=
  if (c.validPairs x y).card = 0 then -1
  else (∑ p ∈ c.validPairs x y, c.Fpad ((x : ℤ) + p.1 - 3) ((y : ℤ) + p.2 - 3)) /
    ((c.validPairs x y).card : ℝ)

/-- helper.getFrequencies: the dense per-pixel frequency field.  The output
canvas is filled with -1 and each full block footprint is overwritten with its
block's final value. -/
def FreqCtx.freqAt (c : FreqCtx) (i j : ℕ) : ℝ :=
  if i / c.w < c.xblocks ∧ j / c.w < c.yblocks then
    c.blockFreq (i / c.w) (j / c.w)
  else -1

/-- A minutia point as features.py consumes it: the row (fincoords entries
are triples (x, y, typeCode)). -/
structure Minutia where
  x : ℝ
  y : ℝ
  typ : ℝ

instance : Inhabited Minutia := ⟨⟨0, 0, 0⟩⟩

/-- One ridge-count record, the 6-tuple features.py indexes as
(ki, typeI, countI, kj, typeJ, countJ). -/
structure RidgeCount where
  ki : ℝ × ℝ
  ti : ℝ
  ni : ℝ
  kj : ℝ × ℝ
  tj : ℝ
  nj : ℝ

instance : Inhabited RidgeCount := ⟨⟨(0, 0), 0, 0, (0, 0), 0, 0⟩⟩

/-- Modelled from the spec: helper.dki is called by features.py but absent
from the repository's source files; the specification defines it as the
Euclidean distance between the two points. -/
def dki (p k : ℝ × ℝ) : ℝ := Real.sqrt ((p.1 - k.1) ^ 2 + (p.2 - k.2) ^ 2)

/-- Modelled from the spec: helper.dfi is called by features.py but absent
from the repository's source files; the specification defines it as the
angular difference of its arguments wrapped into (-pi/2, pi/2]. -/
def dfi (a b : ℝ) : ℝ := π / 2 - pymod (π / 2 - (a - b)) π

/-- The orientation-field lookup of FeatureBase: theta at a point's integer
coordinates. -/
def lookupTheta (orientations : ℤ → ℤ → ℝ) (p : ℝ × ℝ) : ℝ :=
  orientations (pyInt p.1) (pyInt p.2)

/-- FeatureBase.make_feature_vector: the 11-entry feature tuple of one
minutia, given its ridge-count record and the orientation field. -/
def make_feature_vector (p : Minutia) (orientations : ℤ → ℤ → ℝ)
    (rc : RidgeCount) : List ℝ :=
  let theta := lookupTheta orientations (p.x, p.y)
  let itheta := lookupTheta orientations rc.ki
  let jtheta := lookupTheta orientations rc.kj
  [dki (p.x, p.y) rc.ki,
   dki (p.x, p.y) rc.kj,
   dfi (arctan2 (p.y - rc.ki.2) (p.x - rc.ki.1)) theta,
   dfi (arctan2 (p.y - rc.kj.2) (p.x - rc.kj.1)) theta,
   dfi theta itheta,
   dfi theta jtheta,
   rc.ni,
   rc.nj,
   if p.typ = 1 then 1 else 0,
   if rc.ti = 1 then 1 else 0,
   if rc.tj = 1 then 1 else 0]

/-- One iteration of the get_features loop: Python indexes vector[i], which
fails when i is out of that list's range. -/
def featStep (orientations : ℤ → ℤ → ℝ) (fincoords : List Minutia)
    (vector : List RidgeCount) (i : ℕ) : Option (List ℝ) :=
  (fincoords[i]?).bind fun p =>
    (vector[i]?).map fun rc => make_feature_vector p orientations rc

/-- features.get_features: the batch driver over parallel minutia and
ridge-count lists with one shared orientation field. -/
def get_features (fincoords : List Minutia) (vector : List RidgeCount)
    (orientations : ℤ → ℤ → ℝ) : Option (List (List ℝ)) :=
  (List.range fincoords.length).mapM (featStep orientations fincoords vector)

/-- A concrete 3-by-3 test image, the intensity plane i + j. -/
def img3 : ℕ → ℕ → ℝ := fun i j => (i : ℝ) + (j : ℝ)

/-- A concrete frequency-estimation context on a single 3-by-3 block with
trivial external collaborators. -/
def trivCtx : FreqCtx where
  img := fun _ _ => 0
  hDim := 3
  wDim := 3
  orient := fun _ _ => 0
  w := 3
  rotate := fun _ _ _ _ => 0
  findPeaks := fun _ => []

lemma sinA_nonneg (angle : ℝ) : 0 ≤ sinA angle := abs_nonneg _

lemma cosA_nonneg (angle : ℝ) : 0 ≤ cosA angle := abs_nonneg _

lemma sinA_sq_add_cosA_sq (angle : ℝ) : sinA angle ^ 2 + cosA angle ^ 2 = 1 := by
  simp [sinA, cosA, sq_abs, Real.sin_sq_add_cos_sq]

lemma sideShortN_le_sideLongN (h w : ℕ) : sideShortN h w ≤ sideLongN h w := by
  unfold sideShortN sideLongN
  split <;> omega

lemma sideShortN_pos {h w : ℕ} (hh : 0 < h) (hw : 0 < w) : 0 < sideShortN h w := by
  unfold sideShortN
  split <;> omega

lemma sideShortN_eq_min (h w : ℕ) : sideShortN h w = min w h := by
  unfold sideShortN
  rw [min_def]
  split_ifs <;> omega

lemma sideLongN_eq_max (h w : ℕ) : sideLongN h w = max w h := by
  unfold sideLongN
  rw [max_def]
  split_ifs <;> omega

/-- Claim C10: on blocks with two strictly positive sides, the division taken
in the branch of rotatedRectWithMaxArea that is actually entered is
well-defined: the half-constrained branch has sin_a and cos_a strictly
positive, and the fully-constrained branch has cos_2a nonzero. -/
theorem divisions_wellDefined (h w : ℕ) (angle : ℝ) (hh : 0 < h) (hw : 0 < w) :
    (halfConstrained h w angle → 0 < sinA angle ∧ 0 < cosA angle) ∧
    (¬ halfConstrained h w angle →
      cosA angle * cosA angle - sinA angle * sinA angle ≠ 0) := by
  have hsders : (0 : ℝ) < (sideShortN h w : ℝ) := by
    exact_mod_cast sideShortN_pos hh hw
  have hsl : (0 : ℝ) ≤ (sideLongN h w : ℝ) := by positivity
  have hs0 := sinA_nonneg angle
  have hc0 := cosA_nonneg angle
  constructor
  · intro hc
    unfold halfConstrained at hc
    constructor
    · nlinarith [mul_nonneg hc0 hsl]
    · nlinarith [mul_nonneg hs0 hsl]
  · intro hnc h0
    apply hnc
    unfold halfConstrained
    have hsq := sinA_sq_add_cosA_sq angle
    have hcs : cosA angle = sinA angle := by nlinarith
    have h2 : 2 * sinA angle * cosA angle = 1 := by nlinarith
    have hle : (sideShortN h w : ℝ) ≤ (sideLongN h w : ℝ) := by
      exact_mod_cast sideShortN_le_sideLongN h w
    nlinarith

/-- Witness of divisions_wellDefined at a concrete 16-by-16 block and angle 0. -/
theorem divisions_wellDefined_witness :
    (halfConstrained 16 16 0 → 0 < sinA 0 ∧ 0 < cosA 0) ∧
    (¬ halfConstrained 16 16 0 →
      cosA 0 * cosA 0 - sinA 0 * sinA 0 ≠ 0) :=
  divisions_wellDefined 16 16 0 (by norm_num) (by norm_num)

lemma sliceLen_of_nonpos (n : ℕ) (d : ℤ) (hd : d ≤ 0) :
    sliceLen n (((n : ℤ) - d) / 2) (((n : ℤ) - d) / 2 + d) = 0 := by
  unfold sliceLen sliceNorm
  split_ifs <;> omega

lemma sliceLen_of_fits (n : ℕ) (d : ℤ) (h1 : 0 < d) (h2 : d ≤ n) :
    sliceLen n (((n : ℤ) - d) / 2) (((n : ℤ) - d) / 2 + d) = d.toNat := by
  unfold sliceLen sliceNorm
  split_ifs <;> omega

lemma sliceStart_of_fits (n : ℕ) (d : ℤ) (h1 : 0 < d) (h2 : d ≤ n) :
    (sliceStart n (((n : ℤ) - d) / 2) : ℤ) = ((n : ℤ) - d) / 2 := by
  unfold sliceStart sliceNorm
  split_ifs <;> omega

/-- Claim C2's amended form: the crop of rotatedRectWithMaxArea follows the
two-regime rule exactly as the specification words it, and the crop is empty
whenever a truncated dimension is nonpositive; the integer-truncated
rectangle is cut centered from the same-size rotated canvas only whenever it
fits within the canvas (a truncated dimension exceeding its canvas side is
clipped by Python slicing to a smaller, generally off-center crop). -/
theorem crop_geometry (h w : ℕ) (angle : ℝ) :
    cropDims h w angle = specCropDims h w angle ∧
    (cropHr h w angle ≤ 0 ∨ cropWr h w angle ≤ 0 → rotCropSize h w angle = 0) ∧
    (0 < cropHr h w angle → cropHr h w angle ≤ (h : ℤ) →
      rotCropRows h w angle = (cropHr h w angle).toNat ∧
      (sliceStart h (cropY h w angle) : ℤ) = ((h : ℤ) - cropHr h w angle) / 2) ∧
    (0 < cropWr h w angle → cropWr h w angle ≤ (w : ℤ) →
      rotCropCols h w angle = (cropWr h w angle).toNat ∧
      (sliceStart w (cropX h w angle) : ℤ) = ((w : ℤ) - cropWr h w angle) / 2) := by
  refine ⟨?_, ?_, ?_, ?_⟩
  · simp only [cropDims, specCropDims, halfConstrained]
    rw [sideShortN_eq_min, sideLongN_eq_max]
    split_ifs <;> first
      | rfl
      | rw [pow_two, pow_two]
  · intro hneg
    unfold rotCropSize rotCropRows rotCropCols cropY cropX
    rcases hneg with hneg | hneg
    · rw [sliceLen_of_nonpos h _ hneg]
      exact Nat.zero_mul _
    · rw [sliceLen_of_nonpos w _ hneg]
      exact Nat.mul_zero _
  · intro hpos hle
    unfold rotCropRows cropY
    exact ⟨sliceLen_of_fits h _ hpos hle, sliceStart_of_fits h _ hpos hle⟩
  · intro hpos hle
    unfold rotCropCols cropX
    exact ⟨sliceLen_of_fits w _ hpos hle, sliceStart_of_fits w _ hpos hle⟩

/-- Claim C7: make_feature_vector returns exactly the 11 fields in the fixed
order (dki, dkj, fiki, fikj, phiki, phikj, nki, nkj, type, typei, typej), the
two ridge counts copied unchanged from the record and the three type fields
the 0/1 indicators of their type codes being 1. -/
theorem feature_vector_fields (p : Minutia) (orientations : ℤ → ℤ → ℝ)
    (rc : RidgeCount) :
    (make_feature_vector p orientations rc).length = 11 ∧
    make_feature_vector p orientations rc =
      [dki (p.x, p.y) rc.ki,
       dki (p.x, p.y) rc.kj,
       dfi (arctan2 (p.y - rc.ki.2) (p.x - rc.ki.1))
         (lookupTheta orientations (p.x, p.y)),
       dfi (arctan2 (p.y - rc.kj.2) (p.x - rc.kj.1))
         (lookupTheta orientations (p.x, p.y)),
       dfi (lookupTheta orientations (p.x, p.y)) (lookupTheta orientations rc.ki),
       dfi (lookupTheta orientations (p.x, p.y)) (lookupTheta orientations rc.kj),
       rc.ni, rc.nj,
       if p.typ = 1 then 1 else 0,
       if rc.ti = 1 then 1 else 0,
       if rc.tj = 1 then 1 else 0] ∧
    (make_feature_vector p orientations rc).getD 6 0 = rc.ni ∧
    (make_feature_vector p orientations rc).getD 7 0 = rc.nj ∧
    (make_feature_vector p orientations rc).getD 8 0 =
      (if p.typ = 1 then 1 else 0) ∧
    (make_feature_vector p orientations rc).getD 9 0 =
      (if rc.ti = 1 then 1 else 0) ∧
    (make_feature_vector p orientations rc).getD 10 0 =
      (if rc.tj = 1 then 1 else 0) := by
  refine ⟨rfl, rfl, rfl, rfl, rfl, rfl, rfl⟩

/-- Claim C8: the first two fields of the feature vector are the Euclidean
distances from the minutia P to the neighbor points ki and kj. -/
theorem feature_vector_distances (p : Minutia) (orientations : ℤ → ℤ → ℝ)
    (rc : RidgeCount) :
    (make_feature_vector p orientations rc).getD 0 0 =
      dist (⟨p.x, p.y⟩ : ℂ) ⟨rc.ki.1, rc.ki.2⟩ ∧
    (make_feature_vector p orientations rc).getD 1 0 =
      dist (⟨p.x, p.y⟩ : ℂ) ⟨rc.kj.1, rc.kj.2⟩ := by
  constructor <;> rw [Complex.dist_eq_re_im] <;> rfl

lemma mapM_eq_map_of_forall {α β : Type} (l : List α) (f : α → Option β)
    (g : α → β) (hfg : ∀ a ∈ l, f a = some (g a)) :
    l.mapM f = some (l.map g) := by
  induction l with
  | nil => rfl
  | cons a t ih =>
    have ha := hfg a (List.mem_cons_self a t)
    have ht := ih (fun b hb => hfg b (List.mem_cons_of_mem a hb))
    rw [List.mapM_cons, ha, ht]
    rfl

lemma get_features_eq (orientations : ℤ → ℤ → ℝ) (fincoords : List Minutia)
    (vector : List RidgeCount) (hlen : fincoords.length = vector.length) :
    get_features fincoords vector orientations =
      some ((List.range fincoords.length).map (fun i =>
        make_feature_vector (fincoords.getD i default) orientations
          (vector.getD i default))) := by
  unfold get_features
  apply mapM_eq_map_of_forall
  intro i hi
  rw [List.mem_range] at hi
  have hiv : i < vector.length := hlen ▸ hi
  unfold featStep
  rw [List.getElem?_eq_getElem hi, List.getElem?_eq_getElem hiv]
  simp [List.getD_eq_getElem?_getD, List.getElem?_eq_getElem hi,
    List.getElem?_eq_getElem hiv]

/-- Claim C9: on equal-length inputs, get_features yields exactly one feature
vector per minutia, the i-th derived from the i-th minutia, the i-th
ridge-count record and the shared orientation field alone: any other inputs
agreeing at index i give the same i-th output. -/
theorem get_features_batch (orientations : ℤ → ℤ → ℝ)
    (fincoords : List Minutia) (vector : List RidgeCount)
    (hlen : fincoords.length = vector.length) :
    ∃ l, get_features fincoords vector orientations = some l ∧
      l.length = fincoords.length ∧
      ∀ i, i < fincoords.length →
        l.getD i [] = make_feature_vector (fincoords.getD i default)
          orientations (vector.getD i default) ∧
        ∀ (fc2 : List Minutia) (v2 : List RidgeCount) (l2 : List (List ℝ)),
          fc2.length = v2.length →
          get_features fc2 v2 orientations = some l2 →
          i < fc2.length →
          fc2.getD i default = fincoords.getD i default →
          v2.getD i default = vector.getD i default →
          l2.getD i [] = l.getD i [] := by
  refine ⟨_, get_features_eq orientations fincoords vector hlen, by simp, ?_⟩
  intro i hi
  have hmap : ∀ (fc : List Minutia) (v : List RidgeCount), i < fc.length →
      ((List.range fc.length).map (fun k =>
        make_feature_vector (fc.getD k default) orientations
          (v.getD k default))).getD i [] =
        make_feature_vector (fc.getD i default) orientations
          (v.getD i default) := by
    intro fc v hif
    rw [List.getD_eq_getElem?_getD, List.getElem?_map, List.getElem?_range hif]
    rfl
  refine ⟨hmap fincoords vector hi, ?_⟩
  intro fc2 v2 l2 hlen2 hget2 hi2 hfc hv
  rw [get_features_eq orientations fc2 v2 hlen2] at hget2
  have hl2 : l2 = (List.range fc2.length).map (fun k =>
      make_feature_vector (fc2.getD k default) orientations
        (v2.getD k default)) := by
    exact (Option.some_injective _ hget2).symm
  rw [hl2, hmap fc2 v2 hi2, hmap fincoords vector hi, hfc, hv]

/-- Witness of get_features_batch on one concrete minutia and record. -/
theorem get_features_batch_witness :
    ∃ l, get_features [⟨0, 0, 0⟩] [⟨(0, 0), 0, 0, (0, 0), 0, 0⟩]
        (fun _ _ => 0) = some l ∧
      l.length = ([⟨0, 0, 0⟩] : List Minutia).length ∧
      ∀ i, i < ([⟨0, 0, 0⟩] : List Minutia).length →
        l.getD i [] = make_feature_vector
          (([⟨0, 0, 0⟩] : List Minutia).getD i default) (fun _ _ => 0)
          (([⟨(0, 0), 0, 0, (0, 0), 0, 0⟩] : List RidgeCount).getD i default) ∧
        ∀ (fc2 : List Minutia) (v2 : List RidgeCount) (l2 : List (List ℝ)),
          fc2.length = v2.length →
          get_features fc2 v2 (fun _ _ => 0) = some l2 →
          i < fc2.length →
          fc2.getD i default = ([⟨0, 0, 0⟩] : List Minutia).getD i default →
          v2.getD i default =
            ([⟨(0, 0), 0, 0, (0, 0), 0, 0⟩] : List RidgeCount).getD i default →
          l2.getD i [] = l.getD i [] :=
  get_features_batch (fun _ _ => 0) [⟨0, 0, 0⟩] [⟨(0, 0), 0, 0, (0, 0), 0, 0⟩] rfl

/-- Claim C1: the pre-smoothing local estimate of a block is the sentinel -1
exactly when the rotated crop is empty, or fewer than 2 peaks are found, or
the mean peak spacing leaves [5, 15]; otherwise it is 1 over that spacing. -/
theorem local_freq_sentinel (c : FreqCtx) (x y : ℕ) :
    (c.localFreq x y =
      if c.windowSize x y = 0 ∨ (c.peaks x y).length < 2 ∨
          c.spacing x y < 5 ∨ 15 < c.spacing x y then -1
      else 1 / c.spacing x y) ∧
    (c.localFreq x y = -1 ↔
      c.windowSize x y = 0 ∨ (c.peaks x y).length < 2 ∨
        c.spacing x y < 5 ∨ 15 < c.spacing x y) := by
  have hform : c.localFreq x y =
      if c.windowSize x y = 0 ∨ (c.peaks x y).length < 2 ∨
          c.spacing x y < 5 ∨ 15 < c.spacing x y then -1
      else 1 / c.spacing x y := by
    unfold FreqCtx.localFreq
    split_ifs with h1 h2 h3 h4 <;> tauto
  refine ⟨hform, ?_⟩
  rw [hform]
  split_ifs with hbad
  · simp [hbad]
  · push_neg at hbad
    have h5 : (5 : ℝ) ≤ c.spacing x y := hbad.2.2.1
    have hpos : 0 < 1 / c.spacing x y := by positivity
    constructor
    · intro habs
      linarith
    · intro hd
      rcases hd with hd | hd | hd | hd
      · exact absurd hd hbad.1
      · have := hbad.2.1
        omega
      · linarith [hbad.2.2.1]
      · linarith [hbad.2.2.2]

lemma localFreq_range (c : FreqCtx) (x y : ℕ) :
    c.localFreq x y = -1 ∨ c.localFreq x y ∈ Set.Icc (1 / 15 : ℝ) (1 / 5) := by
  unfold FreqCtx.localFreq
  split_ifs with h1 h2 h3
  · exact Or.inl rfl
  · exact Or.inl rfl
  · exact Or.inl rfl
  · push_neg at h3
    right
    have h5 : (5 : ℝ) ≤ c.spacing x y := h3.1
    have h15 : c.spacing x y ≤ 15 := h3.2
    constructor
    · apply one_div_le_one_div_of_le <;> linarith
    · apply one_div_le_one_div_of_le <;> linarith

lemma Fpad_range (c : FreqCtx) (i j : ℤ) :
    c.Fpad i j = -1 ∨ c.Fpad i j ∈ Set.Icc (1 / 15 : ℝ) (1 / 5) :=
  localFreq_range c _ _

lemma validPairs_eq_sentinelValid (c : FreqCtx) (x y : ℕ) :
    c.validPairs x y = c.sentinelValid x y := by
  unfold FreqCtx.validPairs FreqCtx.sentinelValid
  apply Finset.filter_congr
  intro p _
  rcases Fpad_range c ((x : ℤ) + p.1 - 3) ((y : ℤ) + p.2 - 3) with hv | hv
  · rw [hv]
    norm_num
  · rw [Set.mem_Icc] at hv
    have h0 : (0 : ℝ) ≤ c.Fpad ((x : ℤ) + p.1 - 3) ((y : ℤ) + p.2 - 3) := by
      linarith [hv.1]
    have hne : c.Fpad ((x : ℤ) + p.1 - 3) ((y : ℤ) + p.2 - 3) ≠ -1 := by
      intro habs
      rw [habs] at h0
      linarith
    simp [h0, hne]

lemma validPairs_sum_pos (c : FreqCtx) (x y : ℕ)
    (hcard : (c.validPairs x y).card ≠ 0) :
    0 < ∑ p ∈ c.validPairs x y,
      c.Fpad ((x : ℤ) + p.1 - 3) ((y : ℤ) + p.2 - 3) := by
  have hmem : ∀ p ∈ c.validPairs x y,
      (1 / 15 : ℝ) ≤ c.Fpad ((x : ℤ) + p.1 - 3) ((y : ℤ) + p.2 - 3) := by
    intro p hp
    rw [FreqCtx.validPairs, Finset.mem_filter] at hp
    rcases Fpad_range c ((x : ℤ) + p.1 - 3) ((y : ℤ) + p.2 - 3) with hv | hv
    · rw [hv] at hp
      linarith [hp.2]
    · exact hv.1
  have hsum := Finset.card_nsmul_le_sum (c.validPairs x y)
    (fun p => c.Fpad ((x : ℤ) + p.1 - 3) ((y : ℤ) + p.2 - 3)) (1 / 15) hmem
  have hc1 : 1 ≤ (c.validPairs x y).card := Nat.one_le_iff_ne_zero.mpr hcard
  have : (0 : ℝ) < (c.validPairs x y).card • (1 / 15 : ℝ) := by
    rw [nsmul_eq_mul]
    have : (1 : ℝ) ≤ ((c.validPairs x y).card : ℝ) := by exact_mod_cast hc1
    nlinarith
  linarith

/-- Claim C4: the smoothed value of a block is taken over its 7-by-7
edge-padded neighborhood of local estimates with the sentinel entries
excluded: it is -1 exactly when every neighborhood entry is the sentinel, and
otherwise the arithmetic mean of the non-sentinel entries. -/
theorem freq_smoothing (c : FreqCtx) (x y : ℕ) :
    (c.blockFreq x y = -1 ↔
      ∀ p : Fin 7 × Fin 7, c.Fpad ((x : ℤ) + p.1 - 3) ((y : ℤ) + p.2 - 3) = -1) ∧
    (c.blockFreq x y = -1 ∨
      c.blockFreq x y =
        (∑ p ∈ c.sentinelValid x y,
          c.Fpad ((x : ℤ) + p.1 - 3) ((y : ℤ) + p.2 - 3)) /
          ((c.sentinelValid x y).card : ℝ)) := by
  have hempty : (c.validPairs x y).card = 0 ↔
      ∀ p : Fin 7 × Fin 7, c.Fpad ((x : ℤ) + p.1 - 3) ((y : ℤ) + p.2 - 3) = -1 := by
    rw [Finset.card_eq_zero, validPairs_eq_sentinelValid, FreqCtx.sentinelValid,
      Finset.filter_eq_empty_iff]
    constructor
    · intro hall p
      have := hall (Finset.mem_univ p)
      tauto
    · intro hall p _
      simp [hall p]
  constructor
  · unfold FreqCtx.blockFreq
    split_ifs with h1
    · simp only [eq_self_iff_true, true_iff]
      exact hempty.mp h1
    · constructor
      · intro habs
        have := validPairs_sum_pos c x y h1
        have hcpos : (0 : ℝ) < ((c.validPairs x y).card : ℝ) := by
          have := Nat.one_le_iff_ne_zero.mpr h1
          exact_mod_cast Nat.lt_of_lt_of_le Nat.zero_lt_one this
        rw [div_eq_iff (ne_of_gt hcpos)] at habs
        nlinarith
      · intro hall
        exact absurd (hempty.mpr hall) h1
  · unfold FreqCtx.blockFreq
    split_ifs with h1
    · exact Or.inl rfl
    · right
      rw [validPairs_eq_sentinelValid]

lemma sum_div_card_mem_Icc {α : Type} {s : Finset α} (f : α → ℝ) {a b : ℝ}
    (hne : s.card ≠ 0) (hmem : ∀ p ∈ s, f p ∈ Set.Icc a b) :
    (∑ p ∈ s, f p) / (s.card : ℝ) ∈ Set.Icc a b := by
  have hc : (0 : ℝ) < (s.card : ℝ) := by
    have := Nat.one_le_iff_ne_zero.mpr hne
    exact_mod_cast Nat.lt_of_lt_of_le Nat.zero_lt_one this
  have hlo := Finset.card_nsmul_le_sum s f a (fun p hp => (hmem p hp).1)
  have hhi := Finset.sum_le_card_nsmul s f b (fun p hp => (hmem p hp).2)
  rw [nsmul_eq_mul] at hlo hhi
  constructor
  · rw [le_div_iff₀ hc]
    linarith
  · rw [div_le_iff₀ hc]
    linarith

lemma blockFreq_range (c : FreqCtx) (x y : ℕ) :
    c.blockFreq x y = -1 ∨
      c.blockFreq x y ∈ Set.Icc (1 / 15 : ℝ) (1 / 5) := by
  unfold FreqCtx.blockFreq
  split_ifs with h1
  · exact Or.inl rfl
  · right
    apply sum_div_card_mem_Icc _ h1
    intro p hp
    rw [FreqCtx.validPairs, Finset.mem_filter] at hp
    rcases Fpad_range c ((x : ℤ) + p.1 - 3) ((y : ℤ) + p.2 - 3) with hv | hv
    · rw [hv] at hp
      linarith [hp.2]
    · exact hv

/-- Claim C5: on images whose dimensions the block size divides, every pixel
of the frequency field is the sentinel -1 or lies in [1/15, 1/5], and all
pixels of one w-by-w block footprint carry one value. -/
theorem freq_field_range (c : FreqCtx) (hw : 0 < c.w) (hH : c.w ∣ c.hDim)
    (hW : c.w ∣ c.wDim) (i j i2 j2 : ℕ) (hi : i < c.hDim) (hj : j < c.wDim) :
    (c.freqAt i j = -1 ∨ c.freqAt i j ∈ Set.Icc (1 / 15 : ℝ) (1 / 5)) ∧
    (i2 / c.w = i / c.w → j2 / c.w = j / c.w → c.freqAt i2 j2 = c.freqAt i j) := by
  constructor
  · unfold FreqCtx.freqAt
    split_ifs with h1
    · exact blockFreq_range c _ _
    · exact Or.inl rfl
  · intro h1 h2
    unfold FreqCtx.freqAt
    rw [h1, h2]

/-- Witness of freq_field_range in the concrete single-block context, at the
pixels (0, 0) and (1, 1) of the same block. -/
theorem freq_field_range_witness :
    (trivCtx.freqAt 0 0 = -1 ∨
      trivCtx.freqAt 0 0 ∈ Set.Icc (1 / 15 : ℝ) (1 / 5)) ∧
    (1 / trivCtx.w = 0 / trivCtx.w → 1 / trivCtx.w = 0 / trivCtx.w →
      trivCtx.freqAt 1 1 = trivCtx.freqAt 0 0) :=
  freq_field_range trivCtx (by norm_num [trivCtx]) (by norm_num [trivCtx])
    (by norm_num [trivCtx]) 0 0 1 1 (by norm_num [trivCtx]) (by norm_num [trivCtx])

lemma cropDims_at_ninety : cropDims 16 32 (π / 2) = (16, 32) := by
  unfold cropDims halfConstrained sinA cosA sideShortN sideLongN
  rw [Real.sin_pi_div_two, Real.cos_pi_div_two]
  norm_num

lemma cropHr_at_ninety : cropHr 16 32 (π / 2) = 32 := by
  unfold cropHr
  rw [cropDims_at_ninety]
  norm_num [pyInt]

lemma cropWr_at_ninety : cropWr 16 32 (π / 2) = 16 := by
  unfold cropWr
  rw [cropDims_at_ninety]
  norm_num [pyInt]

/-- Counterexample to claim C2 as stated: for a 16-by-32 block rotated by
pi/2 the truncated crop height is 32, which exceeds the 16-row canvas; the
slice start (16 - 32) // 2 = -8 counts from the end under Python indexing,
and the returned crop has 8 rows starting at canvas row 8 rather than being
the 32-row truncated rectangle centered. -/
theorem crop_geometry_counterexample :
    cropHr 16 32 (π / 2) = 32 ∧
    cropWr 16 32 (π / 2) = 16 ∧
    rotCropRows 16 32 (π / 2) = 8 ∧
    sliceStart 16 (cropY 16 32 (π / 2)) = 8 ∧
    rotCropRows 16 32 (π / 2) ≠ (cropHr 16 32 (π / 2)).toNat := by
  have hrows : rotCropRows 16 32 (π / 2) = 8 := by
    unfold rotCropRows cropY
    rw [cropHr_at_ninety]
    decide
  have hstart : sliceStart 16 (cropY 16 32 (π / 2)) = 8 := by
    unfold sliceStart cropY
    rw [cropHr_at_ninety]
    decide
  refine ⟨cropHr_at_ninety, cropWr_at_ninety, hrows, hstart, ?_⟩
  rw [hrows, cropHr_at_ninety]
  decide

lemma arctan2_mem_Ioc (y x : ℝ) : arctan2 y x ∈ Set.Ioc (-π) π :=
  ⟨Complex.neg_pi_lt_arg _, Complex.arg_le_pi _⟩

lemma arctan2_sin_cos {φ : ℝ} (h1 : -π < φ) (h2 : φ ≤ π) :
    arctan2 (Real.sin φ) (Real.cos φ) = φ := by
  unfold arctan2
  have hmk : (⟨Real.cos φ, Real.sin φ⟩ : ℂ) =
      Complex.cos (φ : ℂ) + Complex.sin (φ : ℂ) * Complex.I := by
    apply Complex.ext <;>
      simp [Complex.cos_ofReal_re, Complex.sin_ofReal_re]
  rw [hmk]
  exact Complex.arg_cos_add_sin_mul_I ⟨h1, h2⟩

lemma smoothStep_const (θ : ℝ) :
    smoothStep (fun _ _ => θ) =
      arctan2 (Real.sin (2 * θ)) (Real.cos (2 * θ)) / 2 := by
  unfold smoothStep
  norm_num [Fin.sum_univ_three]
  ring_nf

/-- Claim C6's amended form: when all nine block angles of a 3-by-3
neighborhood equal an angle theta of [0, pi), the doubled-angle smoothed
value equals theta when theta is at most pi/2, and theta - pi otherwise: the
same axial direction, shifted by pi when the doubled angle wraps. -/
theorem smooth_const_amended (θ : ℝ) (hθ : θ ∈ Set.Ico 0 π) :
    smoothStep (fun _ _ => θ) = if θ ≤ π / 2 then θ else θ - π := by
  rcases hθ with ⟨h0, hπ⟩
  rw [smoothStep_const]
  split_ifs with hc
  · rw [arctan2_sin_cos (by linarith [Real.pi_pos]) (by linarith)]
    ring
  · push_neg at hc
    rw [show Real.sin (2 * θ) = Real.sin (2 * θ - 2 * π) from
        (Real.sin_sub_two_pi _).symm,
      show Real.cos (2 * θ) = Real.cos (2 * θ - 2 * π) from
        (Real.cos_sub_two_pi _).symm,
      arctan2_sin_cos (by linarith) (by linarith [Real.pi_pos])]
    ring

/-- Witness of smooth_const_amended at theta = 0. -/
theorem smooth_const_amended_witness :
    smoothStep (fun _ _ => 0) = if (0 : ℝ) ≤ π / 2 then 0 else 0 - π :=
  smooth_const_amended 0 ⟨le_refl 0, Real.pi_pos⟩

/-- Counterexample to claim C6 as stated: at theta = 3 pi / 4, a constant
3-by-3 neighborhood smooths to -pi/4, not to theta. -/
theorem smooth_const_counterexample :
    smoothStep (fun _ _ => 3 * π / 4) = -(π / 4) ∧
    3 * π / 4 ∈ Set.Ico 0 π ∧
    -(π / 4) ≠ 3 * π / 4 := by
  have hπ := Real.pi_pos
  refine ⟨?_, ⟨by linarith, by linarith⟩, by intro habs; linarith⟩
  rw [smoothStep_const]
  rw [show (2 : ℝ) * (3 * π / 4) = -(π / 2) + 2 * π by ring]
  rw [Real.sin_add_two_pi, Real.cos_add_two_pi,
    arctan2_sin_cos (by linarith) (by linarith)]
  ring

/-- Claim C3's amended form: on images whose dimensions the block size
divides, every pixel of the dense orientation field lies in (-pi/2, pi/2],
the range of the halved atan2 of the final smoothing step (the field is not
reduced into [0, pi) after smoothing). -/
theorem orientations_range (img : ℕ → ℕ → ℝ) (hDim wDim w : ℕ)
    (hH : w ∣ hDim) (hW : w ∣ wDim) (i j : ℕ) (hi : i < hDim) (hj : j < wDim) :
    getOrientations img hDim wDim w i j ∈ Set.Ioc (-(π / 2)) (π / 2) := by
  have hib : i / w < hDim / w := Nat.div_lt_div_of_lt_of_dvd hH hi
  have hjb : j / w < wDim / w := Nat.div_lt_div_of_lt_of_dvd hW hj
  unfold getOrientations
  rw [if_pos ⟨hib, hjb⟩]
  unfold orientSmooth smoothStep
  rcases arctan2_mem_Ioc
    ((∑ a : Fin 3, ∑ b : Fin 3, Real.sin
      (2 * orienPadded img hDim wDim w ((i / w : ℕ) + off a)
        ((j / w : ℕ) + off b))) / 9)
    ((∑ a : Fin 3, ∑ b : Fin 3, Real.cos
      (2 * orienPadded img hDim wDim w ((i / w : ℕ) + off a)
        ((j / w : ℕ) + off b))) / 9) with ⟨hlo, hhi⟩
  constructor <;> [linarith; linarith]

/-- Witness of orientations_range at the concrete 3-by-3 image. -/
theorem orientations_range_witness :
    getOrientations img3 3 3 3 0 0 ∈ Set.Ioc (-(π / 2)) (π / 2) :=
  orientations_range img3 3 3 3 (dvd_refl 3) (dvd_refl 3) 0 0
    (by norm_num) (by norm_num)

lemma toNatTwo : Int.toNat 2 = 2 := rfl

lemma blur3v00 : blurred img3 3 3 0 0 = 1 := by
  norm_num [blurred, blurK, off, reflAt, reflect101, img3, Fin.sum_univ_three, toNatTwo]

lemma blur3v01 : blurred img3 3 3 0 1 = 3 / 2 := by
  norm_num [blurred, blurK, off, reflAt, reflect101, img3, Fin.sum_univ_three, toNatTwo]

lemma blur3v02 : blurred img3 3 3 0 2 = 2 := by
  norm_num [blurred, blurK, off, reflAt, reflect101, img3, Fin.sum_univ_three, toNatTwo]

lemma blur3v10 : blurred img3 3 3 1 0 = 3 / 2 := by
  norm_num [blurred, blurK, off, reflAt, reflect101, img3, Fin.sum_univ_three, toNatTwo]

lemma blur3v11 : blurred img3 3 3 1 1 = 2 := by
  norm_num [blurred, blurK, off, reflAt, reflect101, img3, Fin.sum_univ_three, toNatTwo]

lemma blur3v12 : blurred img3 3 3 1 2 = 5 / 2 := by
  norm_num [blurred, blurK, off, reflAt, reflect101, img3, Fin.sum_univ_three, toNatTwo]

lemma blur3v20 : blurred img3 3 3 2 0 = 2 := by
  norm_num [blurred, blurK, off, reflAt, reflect101, img3, Fin.sum_univ_three, toNatTwo]

lemma blur3v21 : blurred img3 3 3 2 1 = 5 / 2 := by
  norm_num [blurred, blurK, off, reflAt, reflect101, img3, Fin.sum_univ_three, toNatTwo]

lemma blur3v22 : blurred img3 3 3 2 2 = 3 := by
  norm_num [blurred, blurK, off, reflAt, reflect101, img3, Fin.sum_univ_three, toNatTwo]

lemma gx3v00 : gradX img3 3 3 0 0 = 0 := by
  norm_num [gradX, sobelS, sobelD, off, reflAt, reflect101, Fin.sum_univ_three, toNatTwo,
    blur3v00, blur3v01, blur3v02, blur3v10, blur3v11, blur3v12, blur3v20, blur3v21, blur3v22]

lemma gx3v01 : gradX img3 3 3 0 1 = 4 := by
  norm_num [gradX, sobelS, sobelD, off, reflAt, reflect101, Fin.sum_univ_three, toNatTwo,
    blur3v00, blur3v01, blur3v02, blur3v10, blur3v11, blur3v12, blur3v20, blur3v21, blur3v22]

lemma gx3v02 : gradX img3 3 3 0 2 = 0 := by
  norm_num [gradX, sobelS, sobelD, off, reflAt, reflect101, Fin.sum_univ_three, toNatTwo,
    blur3v00, blur3v01, blur3v02, blur3v10, blur3v11, blur3v12, blur3v20, blur3v21, blur3v22]

lemma gx3v10 : gradX img3 3 3 1 0 = 0 := by
  norm_num [gradX, sobelS, sobelD, off, reflAt, reflect101, Fin.sum_univ_three, toNatTwo,
    blur3v00, blur3v01, blur3v02, blur3v10, blur3v11, blur3v12, blur3v20, blur3v21, blur3v22]

lemma gx3v11 : gradX img3 3 3 1 1 = 4 := by
  norm_num [gradX, sobelS, sobelD, off, reflAt, reflect101, Fin.sum_univ_three, toNatTwo,
    blur3v00, blur3v01, blur3v02, blur3v10, blur3v11, blur3v12, blur3v20, blur3v21, blur3v22]

lemma gx3v12 : gradX img3 3 3 1 2 = 0 := by
  norm_num [gradX, sobelS, sobelD, off, reflAt, reflect101, Fin.sum_univ_three, toNatTwo,
    blur3v00, blur3v01, blur3v02, blur3v10, blur3v11, blur3v12, blur3v20, blur3v21, blur3v22]

lemma gx3v20 : gradX img3 3 3 2 0 = 0 := by
  norm_num [gradX, sobelS, sobelD, off, reflAt, reflect101, Fin.sum_univ_three, toNatTwo,
    blur3v00, blur3v01, blur3v02, blur3v10, blur3v11, blur3v12, blur3v20, blur3v21, blur3v22]

lemma gx3v21 : gradX img3 3 3 2 1 = 4 := by
  norm_num [gradX, sobelS, sobelD, off, reflAt, reflect101, Fin.sum_univ_three, toNatTwo,
    blur3v00, blur3v01, blur3v02, blur3v10, blur3v11, blur3v12, blur3v20, blur3v21, blur3v22]

lemma gx3v22 : gradX img3 3 3 2 2 = 0 := by
  norm_num [gradX, sobelS, sobelD, off, reflAt, reflect101, Fin.sum_univ_three, toNatTwo,
    blur3v00, blur3v01, blur3v02, blur3v10, blur3v11, blur3v12, blur3v20, blur3v21, blur3v22]

lemma gy3v00 : gradY img3 3 3 0 0 = 0 := by
  norm_num [gradY, sobelS, sobelD, off, reflAt, reflect101, Fin.sum_univ_three, toNatTwo,
    blur3v00, blur3v01, blur3v02, blur3v10, blur3v11, blur3v12, blur3v20, blur3v21, blur3v22]

lemma gy3v01 : gradY img3 3 3 0 1 = 0 := by
  norm_num [gradY, sobelS, sobelD, off, reflAt, reflect101, Fin.sum_univ_three, toNatTwo,
    blur3v00, blur3v01, blur3v02, blur3v10, blur3v11, blur3v12, blur3v20, blur3v21, blur3v22]

lemma gy3v02 : gradY img3 3 3 0 2 = 0 := by
  norm_num [gradY, sobelS, sobelD, off, reflAt, reflect101, Fin.sum_univ_three, toNatTwo,
    blur3v00, blur3v01, blur3v02, blur3v10, blur3v11, blur3v12, blur3v20, blur3v21, blur3v22]

lemma gy3v10 : gradY img3 3 3 1 0 = 4 := by
  norm_num [gradY, sobelS, sobelD, off, reflAt, reflect101, Fin.sum_univ_three, toNatTwo,
    blur3v00, blur3v01, blur3v02, blur3v10, blur3v11, blur3v12, blur3v20, blur3v21, blur3v22]

lemma gy3v11 : gradY img3 3 3 1 1 = 4 := by
  norm_num [gradY, sobelS, sobelD, off, reflAt, reflect101, Fin.sum_univ_three, toNatTwo,
    blur3v00, blur3v01, blur3v02, blur3v10, blur3v11, blur3v12, blur3v20, blur3v21, blur3v22]

lemma gy3v12 : gradY img3 3 3 1 2 = 4 := by
  norm_num [gradY, sobelS, sobelD, off, reflAt, reflect101, Fin.sum_univ_three, toNatTwo,
    blur3v00, blur3v01, blur3v02, blur3v10, blur3v11, blur3v12, blur3v20, blur3v21, blur3v22]

lemma gy3v20 : gradY img3 3 3 2 0 = 0 := by
  norm_num [gradY, sobelS, sobelD, off, reflAt, reflect101, Fin.sum_univ_three, toNatTwo,
    blur3v00, blur3v01, blur3v02, blur3v10, blur3v11, blur3v12, blur3v20, blur3v21, blur3v22]

lemma gy3v21 : gradY img3 3 3 2 1 = 0 := by
  norm_num [gradY, sobelS, sobelD, off, reflAt, reflect101, Fin.sum_univ_three, toNatTwo,
    blur3v00, blur3v01, blur3v02, blur3v10, blur3v11, blur3v12, blur3v20, blur3v21, blur3v22]

lemma gy3v22 : gradY img3 3 3 2 2 = 0 := by
  norm_num [gradY, sobelS, sobelD, off, reflAt, reflect101, Fin.sum_univ_three, toNatTwo,
    blur3v00, blur3v01, blur3v02, blur3v10, blur3v11, blur3v12, blur3v20, blur3v21, blur3v22]

lemma orientNum3 : orientNum img3 3 3 3 0 0 = 32 := by
  norm_num [orientNum, Finset.sum_range_succ,
    gx3v00, gx3v01, gx3v02, gx3v10, gx3v11, gx3v12, gx3v20, gx3v21, gx3v22,
    gy3v00, gy3v01, gy3v02, gy3v10, gy3v11, gy3v12, gy3v20, gy3v21, gy3v22]

lemma orientDen3 : orientDen img3 3 3 3 0 0 = 0 := by
  norm_num [orientDen, Finset.sum_range_succ,
    gx3v00, gx3v01, gx3v02, gx3v10, gx3v11, gx3v12, gx3v20, gx3v21, gx3v22,
    gy3v00, gy3v01, gy3v02, gy3v10, gy3v11, gy3v12, gy3v20, gy3v21, gy3v22]

lemma orienRaw3 : orienRaw img3 3 3 3 0 0 = π / 4 := by
  unfold orienRaw arctan2
  rw [orientNum3, orientDen3]
  have h1 : (⟨(0 : ℝ), (32 : ℝ)⟩ : ℂ) = ((32 : ℝ) : ℂ) * Complex.I := by
    apply Complex.ext <;> simp
  rw [h1, Complex.arg_real_mul _ (by norm_num : (0 : ℝ) < 32), Complex.arg_I]
  ring

lemma orienMod3 : orienMod img3 3 3 3 0 0 = 3 * π / 4 := by
  unfold orienMod pymod
  rw [orienRaw3]
  have hq : (π / 4 + π / 2) / π = 3 / 4 := by
    have := Real.pi_ne_zero
    field_simp
    ring
  rw [hq]
  norm_num
  ring

lemma orientSmooth3 : orientSmooth img3 3 3 3 0 0 = -(π / 4) := by
  unfold orientSmooth
  have hnb : (fun a b : Fin 3 =>
      orienPadded img3 3 3 3 (((0 : ℕ) : ℤ) + off a) (((0 : ℕ) : ℤ) + off b)) =
      fun _ _ => 3 * π / 4 := by
    funext a b
    fin_cases a <;> fin_cases b <;>
      norm_num [orienPadded, off, clampIdx, orienMod3]
  rw [hnb, smoothStep_const]
  rw [show (2 : ℝ) * (3 * π / 4) = -(π / 2) + 2 * π by ring]
  rw [Real.sin_add_two_pi, Real.cos_add_two_pi,
    arctan2_sin_cos (by linarith [Real.pi_pos]) (by linarith [Real.pi_pos])]
  ring

/-- Counterexample to claim C3 as stated: at the 3-by-3 image i + j with
block size 3 (dimensions divisible by the block size), the pixel (0, 0) of
the dense orientation field is -pi/4, outside [0, pi). -/
theorem orientations_range_counterexample :
    (3 % 3 = 0) ∧ getOrientations img3 3 3 3 0 0 = -(π / 4) ∧
    getOrientations img3 3 3 3 0 0 ∉ Set.Ico (0 : ℝ) π := by
  have hval : getOrientations img3 3 3 3 0 0 = -(π / 4) := by
    unfold getOrientations
    rw [if_pos (by norm_num)]
    exact orientSmooth3
  refine ⟨rfl, hval, ?_⟩
  rw [hval]
  intro hmem
  rw [Set.mem_Ico] at hmem
  have := Real.pi_pos
  linarith [hmem.1]

end
